import Mathlib

/-
Verification of the filename-renamer core (src/rename_files.py) against its
natural-language specification.

The embedding works at the level of `List Char`: a filename is its list of
code points.  Python string operations used by the source are modelled one
by one:
  * `str.isspace`            -> `pyIsSpace` (the Unicode whitespace set that
                                 CPython's `isspace` recognises);
  * list-comprehension scan  -> `replaceBad`;
  * `re.sub(re.escape(r)+"+", r, s)` -> `pyCollapse` (note that the `+`
                                 binds to the last character of the escaped
                                 token, exactly as in the regex; backslash
                                 group references inside the replacement
                                 argument of `re.sub` are not modelled, and
                                 universal theorems over replacement tokens
                                 carry a no-backslash hypothesis for this
                                 reason);
  * `str.strip(chars)` / `str.rstrip(chars)` -> `pyStrip` / `pyRStrip`;
  * `os.path.splitext`       -> `pySplitext` (the CPython algorithm with
                                 separator '/', including the leading-dot
                                 rule);
  * Python slicing `s[:n]` with possibly negative `n` -> `pySliceTake`;
  * `pathlib.PurePath.stem/.suffix` -> `pathStem` / `pathSuffix`;
  * `str.upper` / `str.lower` per character -> `Char.toUpper`/`Char.toLower`
                                 (faithful on the ASCII data handled here).

`os.name == "nt"` is the `windows` field of the policy.  Filesystem state is
the list of names present in the parent directory; `os.replace` is `fsMove`,
and whether a given `os.replace` call succeeds is an oracle parameter
`moveOk`, so that error paths of `rename_file` can be analysed.
-/

/-- Code points for which CPython's `str.isspace` returns true. -/
def pySpaceCodes : List Nat :=
  [9, 10, 11, 12, 13, 28, 29, 30, 31, 32, 133, 160, 5760,
   8192, 8193, 8194, 8195, 8196, 8197, 8198, 8199, 8200, 8201, 8202,
   8232, 8233, 8239, 8287, 12288]

/-- Model of Python `ch.isspace()` for a single character. -/
def pyIsSpace (ch : Char) : Bool := pySpaceCodes.contains ch.toNat

/-- The per-character replacement test of `sanitize_filename` (line 88 of the
source): `ch in illegal or ch.isspace() or ord(ch) < 32`. -/
def isBadChar (ill : List Char) (ch : Char) : Bool :=
  ill.contains ch || pyIsSpace ch || decide (ch.toNat < 32)

/-- `DEFAULT_ILLEGAL_CHARS = set(r'<>:"/\|?*')` (line 55 of the source). -/
def DEFAULT_ILLEGAL_CHARS : List Char :=
  ['<', '>', ':', '\"', '/', '\\', '|', '?', '*']

/-- The character scan of `sanitize_filename` (lines 86-93): every character
that is illegal, whitespace or a control code point is replaced by the whole
replacement string, all others are kept. -/
def replaceBad (ill repl : List Char) : List Char → List Char
  | [] => []
  | ch :: s => (if isBadChar ill ch then repl else [ch]) ++ replaceBad ill repl s

/-- Fuel-driven core of `pyCollapse`.  The regex `re.escape(r)+"+"` matches
`r` followed by zero or more extra copies of the last character of `r`
(the `+` quantifier applies to the final atom only); `re.sub` rewrites
leftmost non-overlapping matches to `r`.  Here `r = pre ++ [c]`.  The fuel
starts at the length of the list and each step consumes at least one
element, so the fuel never runs out. -/
def pyCollapseGo (pre : List Char) (c : Char) : Nat → List Char → List Char
  | 0, s => s
  | _ + 1, [] => []
  | fuel + 1, x :: xs =>
      if (pre ++ [c]).isPrefixOf (x :: xs) then
        pre ++ c :: pyCollapseGo pre c fuel
          (((x :: xs).drop (pre.length + 1)).dropWhile (fun ch => ch == c))
      else
        x :: pyCollapseGo pre c fuel xs

/-- Model of `re.sub(re.escape(r)+"+", r, s)` for the nonempty token
`r = pre ++ [c]`. -/
def pyCollapse (pre : List Char) (c : Char) (s : List Char) : List Char :=
  pyCollapseGo pre c s.length s

/-- Line 96-97 of the source: the collapse is skipped when the replacement
string is empty (`if replacement:`). -/
def sanitizeCollapse (repl : List Char) (s : List Char) : List Char :=
  match repl with
  | [] => s
  | r :: rs => pyCollapse (r :: rs).dropLast ((r :: rs).getLastD ' ') s

/-- Python `s.lstrip(chars)`: drop leading characters belonging to `chars`. -/
def pyLStrip (chs : List Char) (s : List Char) : List Char :=
  s.dropWhile (fun ch => chs.contains ch)

/-- Python `s.rstrip(chars)`: drop trailing characters belonging to `chars`. -/
def pyRStrip (chs : List Char) (s : List Char) : List Char :=
  (s.reverse.dropWhile (fun ch => chs.contains ch)).reverse

/-- Python `s.strip(chars)`. -/
def pyStrip (chs : List Char) (s : List Char) : List Char :=
  pyRStrip chs (pyLStrip chs s)

/-- The fallback literal of line 102 of the source. -/
def unnamedFallback : List Char := "unnamed".toList

/-- `WINDOWS_RESERVED` (lines 56-60 of the source). -/
def WINDOWS_RESERVED : List (List Char) :=
  ["CON".toList, "PRN".toList, "AUX".toList, "NUL".toList,
   "COM1".toList, "COM2".toList, "COM3".toList, "COM4".toList, "COM5".toList,
   "COM6".toList, "COM7".toList, "COM8".toList, "COM9".toList,
   "LPT1".toList, "LPT2".toList, "LPT3".toList, "LPT4".toList, "LPT5".toList,
   "LPT6".toList, "LPT7".toList, "LPT8".toList, "LPT9".toList]

/-- Line 105 of the source: `result.split(".")[0].upper() in WINDOWS_RESERVED`.
`Char.toUpper` agrees with Python `str.upper` on the ASCII characters the
reserved names consist of. -/
def isReservedName (s : List Char) : Bool :=
  WINDOWS_RESERVED.contains
    ((s.takeWhile (fun ch => !(ch == '.'))).map Char.toUpper)

/-- Python `s.rfind(c)`: index of the last occurrence, `-1` if absent. -/
def rfindIdx (c : Char) (s : List Char) : Int :=
  s.enum.foldl (fun acc p => if p.2 == c then ((p.1 : Int)) else acc) (-1)

/-- CPython `os.path.splitext` (posixpath): split at the last dot provided it
comes after the last separator and at least one character of the basename
before it is not a dot. -/
def pySplitext (p : List Char) : List Char × List Char :=
  if rfindIdx '/' p < rfindIdx '.' p then
    if ((p.drop ((rfindIdx '/' p) + 1).toNat).take
          ((rfindIdx '.' p).toNat - ((rfindIdx '/' p) + 1).toNat)).any
        (fun ch => !(ch == '.')) then
      (p.take (rfindIdx '.' p).toNat, p.drop (rfindIdx '.' p).toNat)
    else (p, [])
  else (p, [])

/-- Python slicing `s[:n]` for an `Int` bound `n` (negative bounds count from
the end). -/
def pySliceTake (s : List Char) (n : Int) : List Char :=
  if 0 ≤ n then s.take n.toNat else s.take (s.length - n.natAbs)

/-- Lines 108-112 of the source: when the result exceeds `max_length`, keep
the extension and slice the stem to `max_length - len(suffix)` characters
(a possibly negative Python slice bound). -/
def truncateResult (maxLen : Nat) (s : List Char) : List Char :=
  if maxLen < s.length then
    pySliceTake (pySplitext s).1 ((maxLen : Int) - ((pySplitext s).2.length : Int))
      ++ (pySplitext s).2
  else s

/-- The sanitization policy: the keyword parameters of `sanitize_filename`
plus the ambient `os.name == "nt"` test of line 105. -/
structure Policy where
  replacement : List Char
  illegal : List Char
  maxLength : Nat
  windows : Bool

/-- Scan stage (lines 86-93). -/
def scanStage (p : Policy) (n : List Char) : List Char :=
  replaceBad p.illegal p.replacement n

/-- Collapse stage (lines 96-97). -/
def collapseStage (p : Policy) (n : List Char) : List Char :=
  sanitizeCollapse p.replacement n

/-- Trim stage (line 99): `result.strip(replacement).rstrip(" .")`. -/
def trimStage (p : Policy) (n : List Char) : List Char :=
  pyRStrip [' ', '.'] (pyStrip p.replacement n)

/-- The sanitized string after normalization, scan, collapse and trim, before
the fallback/reserved/truncation steps. -/
def sanitizeTrimmed (norm : List Char → List Char) (p : Policy) (s : List Char) :
    List Char :=
  trimStage p (collapseStage p (scanStage p (norm s)))

/-- The fallback step (lines 101-102): an empty trimmed result becomes the
literal `"unnamed"`. -/
def sanitizeFallback (norm : List Char → List Char) (p : Policy) (s : List Char) :
    List Char :=
  if (sanitizeTrimmed norm p s).isEmpty then unnamedFallback
  else sanitizeTrimmed norm p s

/-- `sanitize_filename` up to and including the reserved-name step
(lines 84-106). -/
def sanitizeCore (norm : List Char → List Char) (p : Policy) (s : List Char) :
    List Char :=
  if p.windows && isReservedName (sanitizeFallback norm p s) then
    '_' :: sanitizeFallback norm p s
  else sanitizeFallback norm p s

/-- Full model of `sanitize_filename` (lines 77-114), parametric in the
normalization function `norm` standing for
`unicodedata.normalize("NFKC", ·)`. -/
def sanitize_filename (norm : List Char → List Char) (p : Policy) (s : List Char) :
    List Char :=
  truncateResult p.maxLength (sanitizeCore norm p s)

/-- Modelled from the spec: the Unicode canonical-compatibility (NFKC)
normalization applied at line 84 is the standard-library function
`unicodedata.normalize`, whose code is not part of this repository.  On the
ASCII strings appearing in every concrete scenario below NFKC is the
identity, which is what this model computes. -/
def nfkcModel : List Char → List Char := fun s => s

/-- The default policy of a POSIX run: replacement `"_"`, the default illegal
set, `max_length = 255`, not Windows. -/
def defaultPolicy : Policy :=
  ⟨['_'], DEFAULT_ILLEGAL_CHARS, 255, false⟩

/-- The i-th candidate tried by `unique_target` (lines 120-132): the desired
name itself for `i = 0`, then `stem_i ++ suffix`. -/
def candidateName (stem suffix : List Char) (i : Nat) : List Char :=
  if i = 0 then stem ++ suffix else stem ++ '_' :: ((Nat.repr i).toList ++ suffix)

/-- Fuel-driven loop of `unique_target`: advance the index while the
candidate exists on disk.  The candidates are pairwise distinct and the
directory is finite, so fuel `|onDisk| + 1` always suffices. -/
def uniqueTargetGo (onDisk : List (List Char)) (stem suffix : List Char) :
    Nat → Nat → List Char
  | 0, i => candidateName stem suffix i
  | fuel + 1, i =>
      if onDisk.contains (candidateName stem suffix i) then
        uniqueTargetGo onDisk stem suffix fuel (i + 1)
      else candidateName stem suffix i

/-- Model of `unique_target` (lines 120-132).  `onDisk` is the set of names
present in the parent directory; the lock of the source serialises the loop
but keeps no reservation record, so the function is a pure function of the
directory contents and the desired name. -/
def uniqueTarget (onDisk : List (List Char)) (stem suffix : List Char) :
    List Char :=
  uniqueTargetGo onDisk stem suffix (onDisk.length + 1) 0

/-- Index at which `pathlib` splits a file name into stem and suffix: the
last dot, provided it is neither the first nor the last character. -/
def pathSplitIdx (n : List Char) : Option Nat :=
  if 0 < rfindIdx '.' n ∧ rfindIdx '.' n < (n.length : Int) - 1 then
    some (rfindIdx '.' n).toNat
  else none

/-- `pathlib.PurePath.stem` of a file name. -/
def pathStem (n : List Char) : List Char :=
  match pathSplitIdx n with
  | some i => n.take i
  | none => n

/-- `pathlib.PurePath.suffix` of a file name. -/
def pathSuffix (n : List Char) : List Char :=
  match pathSplitIdx n with
  | some i => n.drop i
  | none => []

/-- The observable outcome of one `rename_file` call: the code returns a
bare `Bool`, but its paths are distinguishable through the log stream; the
`failed` constructor carries the two operands of the `os.replace` call whose
`OSError` is logged. -/
inductive Outcome where
  | cancelled
  | unchanged
  | dryRun (target : List Char)
  | renamed (target : List Char)
  | failed (src dst : List Char)
deriving DecidableEq

/-- The boolean actually returned by `rename_file` for each outcome:
`True` for a dry-run report and for a committed rename, `False` otherwise. -/
def outcomeBool : Outcome → Bool
  | Outcome.dryRun _ => true
  | Outcome.renamed _ => true
  | _ => false

/-- `os.replace(src, dst)` on the parent directory contents: `src`
disappears, `dst` is present afterwards (an existing `dst` is overwritten). -/
def fsMove (dir : List (List Char)) (src dst : List Char) : List (List Char) :=
  (dir.erase src).insert dst

/-- The policy with which `rename_file` calls the sanitizer (line 148):
only the replacement is passed, `illegal` and `max_length` keep their
defaults. -/
def runPolicy (repl : List Char) (windows : Bool) : Policy :=
  ⟨repl, DEFAULT_ILLEGAL_CHARS, 255, windows⟩

/-- Model of `rename_file` (lines 138-172) on the contents of the parent
directory.  `stop` is the value of `stop_event.is_set()` at entry, `moveOk`
decides whether a given `os.replace` call succeeds.  The backup base name is
`path.with_suffix(path.suffix + ".bak")`, which always equals the original
name with `".bak"` appended. -/
def rename_file (norm : List Char → List Char) (repl : List Char) (windows : Bool)
    (moveOk : List Char → List Char → Bool)
    (dir : List (List Char)) (nm : List Char)
    (dry_run backup stop : Bool) : List (List Char) × Outcome :=
  if stop then (dir, Outcome.cancelled)
  else
    let newName := sanitize_filename norm (runPolicy repl windows) nm
    if newName = nm then (dir, Outcome.unchanged)
    else
      let target := uniqueTarget dir (pathStem newName) (pathSuffix newName)
      if dry_run then (dir, Outcome.dryRun target)
      else if backup then
        let base := nm ++ ".bak".toList
        let backupPath := uniqueTarget dir (pathStem base) (pathSuffix base)
        if moveOk nm backupPath then
          if moveOk backupPath target then
            (fsMove (fsMove dir nm backupPath) backupPath target,
             Outcome.renamed target)
          else (fsMove dir nm backupPath, Outcome.failed backupPath target)
        else (dir, Outcome.failed nm backupPath)
      else
        if moveOk nm target then (fsMove dir nm target, Outcome.renamed target)
        else (dir, Outcome.failed nm target)

/-- One `os.scandir` entry as observed by `collect_files`
(lines 192-210 of the source). -/
structure DirEntry where
  name : List Char
  isDir : Bool
  isFile : Bool
deriving DecidableEq

/-- Python `name.startswith(".")`. -/
def startsWithDot : List Char → Bool
  | [] => false
  | c :: _ => c == '.'

/-- `Char.toLower` agrees with Python `str.lower` on ASCII. -/
def pyToLower (ch : Char) : Char := ch.toLower

/-- The normalization applied to each configured extension at lines 235-238:
`f".{ext.lstrip('.').lower()}"`. -/
def normExt (ext : List Char) : List Char :=
  '.' :: (pyLStrip ['.'] ext).map pyToLower

/-- Construction of the extension filter in `process_directory`
(lines 235-238): `None` when no list is configured (an empty configured list
is falsy, giving `None` as well), otherwise the set of normalized
extensions. -/
def mkExtSet : Option (List (List Char)) → Option (List (List Char))
  | none => none
  | some [] => none
  | some (t :: ts) => some ((t :: ts).map normExt)

/-- The per-entry decision of `collect_files` (lines 192-210): directories
are never yielded, non-regular files are skipped, hidden names are skipped,
and when a truthy extension filter is present the entry's `pathlib` suffix
(lowercased only when `case_insensitive` is set) must belong to it. -/
def shouldYield (exts : Option (List (List Char))) (ci : Bool) (e : DirEntry) :
    Bool :=
  if e.isDir then false
  else if !e.isFile then false
  else if startsWithDot e.name then false
  else
    match exts with
    | none => true
    | some l =>
        if l.isEmpty then true
        else
          let suf := pathSuffix e.name
          l.contains (if ci then suf.map pyToLower else suf)

/-- The final summary printed by `process_directory` (lines 281-284): it
carries the number of submitted tasks and the renamed counter only. -/
structure BatchSummary where
  total : Nat
  renamed : Nat
deriving DecidableEq

/-- The result-draining loop of `process_directory` (lines 269-273): results
arrive in completion order, the stop flag is checked before folding each
result and the loop breaks as soon as it is observed set; `stopAt` is the
iteration index at which that first happens (`none` when it never does). -/
def drainCount (stopAt : Option Nat) (results : List Bool) : Nat :=
  ((results.take (stopAt.getD results.length)).filter id).length

/-- The summary assembled by `process_directory`: one boolean result per
submitted task, folded by `drainCount`. -/
def processSummary (stopAt : Option Nat) (results : List Bool) : BatchSummary :=
  ⟨results.length, drainCount stopAt results⟩

/-- Decidable test that no two adjacent characters of the list both equal
`c` (the shape on which the single-character collapse is the identity). -/
def noDoubleChar (c : Char) : List Char → Bool
  | x :: y :: rest => !(x == c && y == c) && noDoubleChar c (y :: rest)
  | _ => true

/-- The scan is the identity on strings without replaceable characters. -/
lemma replaceBad_eq_self (ill repl : List Char) (s : List Char)
    (h : ∀ x ∈ s, isBadChar ill x = false) : replaceBad ill repl s = s := by
  induction s with
  | nil => rfl
  | cons a as ih =>
      have ha : isBadChar ill a = false := h a (List.mem_cons_self a as)
      have hrest : ∀ x ∈ as, isBadChar ill x = false :=
        fun x hx => h x (List.mem_cons_of_mem a hx)
      simp [replaceBad, ha, ih hrest]

/-- If the replacement token has no replaceable character, neither has the
output of the scan. -/
lemma replaceBad_goodChars (ill repl : List Char) (s : List Char)
    (hrep : ∀ x ∈ repl, isBadChar ill x = false) :
    ∀ x ∈ replaceBad ill repl s, isBadChar ill x = false := by
  induction s with
  | nil => intro x hx; simp [replaceBad] at hx
  | cons a as ih =>
      intro x hx
      simp only [replaceBad, List.mem_append] at hx
      rcases hx with hx | hx
      · cases hb : isBadChar ill a with
        | true => rw [hb] at hx; simp at hx; exact hrep x hx
        | false =>
            rw [hb] at hx
            simp at hx
            subst hx
            exact hb
      · exact ih x hx

/-- Every character of the collapse output comes from the input or from the
collapsed token. -/
lemma mem_pyCollapseGo (pre : List Char) (c : Char) :
    ∀ (fuel : Nat) (s : List Char), ∀ x ∈ pyCollapseGo pre c fuel s,
      x ∈ s ∨ x ∈ pre ∨ x = c := by
  intro fuel
  induction fuel with
  | zero => intro s x hx; exact Or.inl hx
  | succ fuel ih =>
      intro s x hx
      cases s with
      | nil => simp [pyCollapseGo] at hx
      | cons a as =>
          by_cases hp : (pre ++ [c]).isPrefixOf (a :: as) = true
          · rw [pyCollapseGo, if_pos hp] at hx
            rcases List.mem_append.mp hx with hx | hx
            · exact Or.inr (Or.inl hx)
            · rcases List.mem_cons.mp hx with hx | hx
              · exact Or.inr (Or.inr hx)
              · rcases ih _ x hx with hx | hx
                · refine Or.inl ?_
                  have hsub :
                      List.Sublist
                        (((a :: as).drop (pre.length + 1)).dropWhile
                          (fun ch => ch == c)) (a :: as) :=
                    (List.dropWhile_sublist _).trans (List.drop_sublist _ _)
                  exact hsub.subset hx
                · exact Or.inr hx
          · rw [pyCollapseGo, if_neg hp] at hx
            rcases List.mem_cons.mp hx with hx | hx
            · exact Or.inl (hx ▸ List.mem_cons_self a as)
            · rcases ih _ x hx with hx | hx
              · exact Or.inl (List.mem_cons_of_mem a hx)
              · exact Or.inr hx

/-- Dropping the tail of a `noDoubleChar` list keeps the property. -/
lemma noDoubleChar_tail (c a : Char) (as : List Char)
    (h : noDoubleChar c (a :: as) = true) : noDoubleChar c as = true := by
  cases as with
  | nil => rfl
  | cons b bs =>
      have h2 := h
      simp only [noDoubleChar, Bool.and_eq_true] at h2
      exact h2.2

/-- Single-character collapse is the identity on lists without doubled
occurrences of the character. -/
lemma pyCollapseGo_eq_self (c : Char) :
    ∀ (fuel : Nat) (s : List Char), noDoubleChar c s = true →
      pyCollapseGo [] c fuel s = s := by
  intro fuel
  induction fuel with
  | zero => intro s _; rfl
  | succ fuel ih =>
      intro s hnd
      cases s with
      | nil => rfl
      | cons a as =>
          by_cases hac : c = a
          · subst hac
            have hp : (([] : List Char) ++ [c]).isPrefixOf (c :: as) = true := by
              simp [List.isPrefixOf]
            rw [pyCollapseGo, if_pos hp]
            have hdw : as.dropWhile (fun ch => ch == c) = as := by
              cases as with
              | nil => rfl
              | cons b bs =>
                  have h2 := hnd
                  simp only [noDoubleChar, Bool.and_eq_true, Bool.not_eq_true',
                    Bool.and_eq_false_iff] at h2
                  have hb : (b == c) = false := by
                    rcases h2.1 with h | h
                    · simp at h
                    · exact h
                  simp [List.dropWhile_cons, hb]
            simp only [List.length_nil, List.drop_succ_cons, List.drop_zero,
              List.nil_append]
            rw [hdw, ih as (noDoubleChar_tail c c as hnd)]
          · have hp : (([] : List Char) ++ [c]).isPrefixOf (a :: as) = false := by
              simp [List.isPrefixOf]
              exact hac
            rw [pyCollapseGo, if_neg (by rw [hp]; simp)]
            rw [ih as (noDoubleChar_tail c a as hnd)]

/-- Head-condition form of dropWhile identity. -/
lemma dropWhile_eq_self_of_head (q : Char → Bool) (s : List Char)
    (h : ∀ x, s.head? = some x → q x = false) : s.dropWhile q = s := by
  cases s with
  | nil => rfl
  | cons a as => simp [List.dropWhile_cons, h a rfl]

/-- Python lstrip is the identity when the first character is not stripped. -/
lemma pyLStrip_eq_self (chs s : List Char)
    (h : ∀ x, s.head? = some x → chs.contains x = false) : pyLStrip chs s = s :=
  dropWhile_eq_self_of_head _ _ h

/-- Python rstrip is the identity when the last character is not stripped. -/
lemma pyRStrip_eq_self (chs s : List Char)
    (h : ∀ x, s.getLast? = some x → chs.contains x = false) :
    pyRStrip chs s = s := by
  unfold pyRStrip
  rw [dropWhile_eq_self_of_head]
  · exact s.reverse_reverse
  · intro x hx
    exact h x (by rwa [List.head?_reverse] at hx)

lemma mem_pyLStrip (chs s : List Char) (x : Char) (hx : x ∈ pyLStrip chs s) :
    x ∈ s :=
  (List.dropWhile_sublist _).subset hx

lemma mem_pyRStrip (chs s : List Char) (x : Char) (hx : x ∈ pyRStrip chs s) :
    x ∈ s := by
  unfold pyRStrip at hx
  rw [List.mem_reverse] at hx
  have h2 := (List.dropWhile_sublist _).subset hx
  rwa [List.mem_reverse] at h2

lemma mem_pyStrip (chs s : List Char) (x : Char) (hx : x ∈ pyStrip chs s) :
    x ∈ s :=
  mem_pyLStrip chs s x (mem_pyRStrip chs (pyLStrip chs s) x hx)

/-- The last element of a nonempty list is a member of it. -/
lemma getLastD_cons_mem (r : Char) (rs : List Char) (d : Char) :
    (r :: rs).getLastD d ∈ r :: rs := by
  induction rs generalizing r d with
  | nil => simp
  | cons b bs ih =>
      rw [List.getLastD_cons]
      exact List.mem_cons_of_mem r (ih b r)

/-- Every character of the collapse stage output comes from the input or the
replacement token. -/
lemma mem_sanitizeCollapse (repl s : List Char) (x : Char)
    (hx : x ∈ sanitizeCollapse repl s) : x ∈ s ∨ x ∈ repl := by
  cases repl with
  | nil => exact Or.inl hx
  | cons r rs =>
      rcases mem_pyCollapseGo ((r :: rs).dropLast) ((r :: rs).getLastD ' ')
          _ _ x hx with h | h | h
      · exact Or.inl h
      · exact Or.inr ((List.dropLast_sublist _).subset h)
      · exact Or.inr (h ▸ getLastD_cons_mem r rs ' ')

lemma mem_trimStage (p : Policy) (n : List Char) (x : Char)
    (hx : x ∈ trimStage p n) : x ∈ n :=
  mem_pyStrip _ _ _ (mem_pyRStrip _ _ _ hx)

/-- Both `pySplitext` components concatenate back to the input. -/
lemma pySplitext_fst_append_snd (s : List Char) :
    (pySplitext s).1 ++ (pySplitext s).2 = s := by
  unfold pySplitext
  split
  · split
    · exact List.take_append_drop _ s
    · simp
  · simp

lemma mem_pySplitext_fst (s : List Char) (x : Char)
    (hx : x ∈ (pySplitext s).1) : x ∈ s := by
  unfold pySplitext at hx
  split at hx
  · split at hx
    · exact (List.take_sublist _ _).subset hx
    · exact hx
  · exact hx

lemma mem_pySplitext_snd (s : List Char) (x : Char)
    (hx : x ∈ (pySplitext s).2) : x ∈ s := by
  unfold pySplitext at hx
  split at hx
  · split at hx
    · exact (List.drop_sublist _ _).subset hx
    · simp at hx
  · simp at hx

/-- When `pySplitext` finds no extension, the stem is the whole input. -/
lemma pySplitext_fst_of_snd_nil (s : List Char) :
    (pySplitext s).2 = [] → (pySplitext s).1 = s := by
  unfold pySplitext
  split
  · split
    · intro h
      simp only at h ⊢
      exact List.take_of_length_le (List.drop_eq_nil_iff.mp h)
    · intro _; rfl
  · intro _; rfl

/-- A Python slice `s[:n]` is a prefix-take of `s`. -/
lemma pySliceTake_eq_take (s : List Char) (n : Int) :
    ∃ k, pySliceTake s n = s.take k := by
  unfold pySliceTake
  split
  · exact ⟨n.toNat, rfl⟩
  · exact ⟨s.length - n.natAbs, rfl⟩

lemma length_pySliceTake_le (s : List Char) (n : Int) (h : 0 ≤ n) :
    (pySliceTake s n).length ≤ n.toNat := by
  unfold pySliceTake
  rw [if_pos h]
  simp [List.length_take]

lemma truncateResult_eq_self (m : Nat) (s : List Char) (h : s.length ≤ m) :
    truncateResult m s = s := by
  unfold truncateResult
  rw [if_neg (by omega)]

lemma mem_truncateResult (m : Nat) (s : List Char) (x : Char)
    (hx : x ∈ truncateResult m s) : x ∈ s := by
  unfold truncateResult at hx
  split at hx
  · rcases List.mem_append.mp hx with hx | hx
    · have hx2 : x ∈ (pySplitext s).1 := by
        unfold pySliceTake at hx
        split at hx <;> exact (List.take_sublist _ _).subset hx
      exact mem_pySplitext_fst s x hx2
    · exact mem_pySplitext_snd s x hx
  · exact hx

/-- Truncation never returns the empty string when the bound is at least one
and the input is nonempty. -/
lemma truncateResult_ne_nil (m : Nat) (s : List Char) (hm : 1 ≤ m)
    (hs : s ≠ []) : truncateResult m s ≠ [] := by
  unfold truncateResult
  split
  · by_cases h2 : (pySplitext s).2 = []
    · rw [h2, pySplitext_fst_of_snd_nil s h2]
      simp only [List.append_nil, h2, List.length_nil, Nat.cast_zero, sub_zero]
      unfold pySliceTake
      rw [if_pos (by positivity)]
      rw [Int.toNat_natCast]
      intro hcon
      rcases List.take_eq_nil_iff.mp hcon with h | h
      · omega
      · exact hs h
    · intro hcon
      exact h2 (List.append_eq_nil.mp hcon).2
  · exact hs

/-- The fallback stage never returns the empty string. -/
lemma sanitizeFallback_ne_nil (norm : List Char → List Char) (p : Policy)
    (s : List Char) : sanitizeFallback norm p s ≠ [] := by
  unfold sanitizeFallback
  split
  · intro h; exact absurd h (by decide)
  · intro h
    rename_i hni
    rw [h] at hni
    simp at hni

/-- The core sanitizer never returns the empty string. -/
lemma sanitizeCore_ne_nil (norm : List Char → List Char) (p : Policy)
    (s : List Char) : sanitizeCore norm p s ≠ [] := by
  unfold sanitizeCore
  split
  · intro h; simp at h
  · exact sanitizeFallback_ne_nil norm p s

/-- No character of the fallback literal is whitespace or a control code. -/
lemma unnamedFallback_not_space : ∀ x ∈ unnamedFallback,
    pyIsSpace x = false ∧ decide (x.toNat < 32) = false := by decide

/-- Composite guarantee: when the replacement token, the fallback literal and
(on Windows) the reserved-name marker are all clean under the policy, every
character of the core output passes the replacement test. -/
lemma sanitizeCore_goodChars (norm : List Char → List Char) (p : Policy)
    (s : List Char)
    (hrep : ∀ x ∈ p.replacement, isBadChar p.illegal x = false)
    (hfb : ∀ x ∈ unnamedFallback, p.illegal.contains x = false)
    (hwin : p.windows = true → p.illegal.contains '_' = false) :
    ∀ x ∈ sanitizeCore norm p s, isBadChar p.illegal x = false := by
  have hfb2 : ∀ x ∈ unnamedFallback, isBadChar p.illegal x = false := by
    intro y hy
    have h1 : y ∉ p.illegal := by simpa using hfb y hy
    have h2 := unnamedFallback_not_space y hy
    simp [isBadChar, h1, h2.1, h2.2]
  have hF : ∀ x ∈ sanitizeFallback norm p s, isBadChar p.illegal x = false := by
    intro x hx
    unfold sanitizeFallback at hx
    split at hx
    · exact hfb2 x hx
    · have hx2 := mem_trimStage p _ x hx
      rcases mem_sanitizeCollapse p.replacement _ x hx2 with hx3 | hx3
      · exact replaceBad_goodChars p.illegal p.replacement _ hrep x hx3
      · exact hrep x hx3
  intro x hx
  unfold sanitizeCore at hx
  split at hx
  · rename_i hcond
    rcases List.mem_cons.mp hx with hx | hx
    · subst hx
      have hw : p.windows = true := by
        cases hpw : p.windows
        · rw [hpw] at hcond; simp at hcond
        · rfl
      have h1 : ('_' : Char) ∉ p.illegal := by simpa using hwin hw
      have hsp : pyIsSpace '_' = false := by decide
      have hct : decide (('_' : Char).toNat < 32) = false := by decide
      simp [isBadChar, h1, hsp, hct]
    · exact hF x hx
  · exact hF x hx

lemma contains_singleton_false (c x : Char) (h : x ≠ c) :
    [c].contains x = false := by
  simpa using h

lemma contains_pair_false (a b x : Char) (h1 : x ≠ a) (h2 : x ≠ b) :
    [a, b].contains x = false := by
  simp [h1, h2]

/-- A string that is already in fully sanitized shape — only clean
characters, no doubled replacement character, not starting or ending with
the replacement character, not ending with a space or dot, nonempty, no
reserved-name hit, within the length bound — is a fixed point of the
sanitizer. -/
lemma sanitize_filename_fixed (norm : List Char → List Char) (p : Policy)
    (c : Char) (t : List Char)
    (hr : p.replacement = [c])
    (hnorm : norm t = t)
    (hgood : ∀ x ∈ t, isBadChar p.illegal x = false)
    (hnd : noDoubleChar c t = true)
    (hhead : t.head? ≠ some c)
    (hlc : t.getLast? ≠ some c)
    (hlsp : t.getLast? ≠ some ' ')
    (hld : t.getLast? ≠ some '.')
    (hne : t ≠ [])
    (hres : (p.windows && isReservedName t) = false)
    (hlen : t.length ≤ p.maxLength) :
    sanitize_filename norm p t = t := by
  have h1 : scanStage p (norm t) = t := by
    rw [hnorm]
    exact replaceBad_eq_self _ _ _ hgood
  have h2 : collapseStage p t = t := by
    unfold collapseStage
    rw [hr]
    show pyCollapseGo [] c t.length t = t
    exact pyCollapseGo_eq_self c t.length t hnd
  have h3 : pyStrip p.replacement t = t := by
    rw [hr]
    unfold pyStrip
    rw [pyLStrip_eq_self [c] t ?hl]
    case hl =>
      intro x hx
      exact contains_singleton_false c x (fun he => hhead (he ▸ hx))
    exact pyRStrip_eq_self [c] t
      (fun x hx => contains_singleton_false c x (fun he => hlc (he ▸ hx)))
  have h4 : trimStage p t = t := by
    unfold trimStage
    rw [h3]
    exact pyRStrip_eq_self [' ', '.'] t
      (fun x hx => contains_pair_false ' ' '.' x
        (fun he => hlsp (he ▸ hx)) (fun he => hld (he ▸ hx)))
  have h5 : sanitizeTrimmed norm p t = t := by
    unfold sanitizeTrimmed
    rw [h1, h2, h4]
  have h6 : sanitizeFallback norm p t = t := by
    unfold sanitizeFallback
    rw [h5]
    rw [if_neg (by simp [List.isEmpty_iff, hne])]
  have h7 : sanitizeCore norm p t = t := by
    unfold sanitizeCore
    rw [h6]
    rw [if_neg (by rw [hres]; simp)]
  unfold sanitize_filename
  rw [h7]
  exact truncateResult_eq_self _ _ hlen

/-- Claim C1 counterexample: under the default policy (replacement `"_"`,
default illegal set, max length 255) the sanitizer is not idempotent: the
input `"a_."` sanitizes to `"a_"` (the trailing-dot trim exposes a trailing
replacement character), which sanitizes further to `"a"`. -/
theorem sanitize_not_idempotent_default :
    sanitize_filename nfkcModel defaultPolicy
        (sanitize_filename nfkcModel defaultPolicy ("a_.".toList)) ≠
      sanitize_filename nfkcModel defaultPolicy ("a_.".toList) := by decide

/-- Claim C1 (corrected): `sanitize` is idempotent at every input whose first
result is already fully sanitized — for a single-character replacement token,
whenever `sanitize(s, p)` is normalization-invariant, contains only clean
characters, has no doubled replacement character, neither starts nor ends
with the replacement character, does not end with a space or a dot, triggers
no reserved-name prefix, and fits within the maximum length, a second
application returns it unchanged.  (Without these provisos idempotence fails,
see the counterexample.) -/
theorem sanitize_idempotent_on_sanitized_outputs
    (norm : List Char → List Char) (p : Policy) (s : List Char) (c : Char)
    (hr : p.replacement = [c])
    (hnorm : norm (sanitize_filename norm p s) = sanitize_filename norm p s)
    (hgood : ∀ x ∈ sanitize_filename norm p s, isBadChar p.illegal x = false)
    (hnd : noDoubleChar c (sanitize_filename norm p s) = true)
    (hhead : (sanitize_filename norm p s).head? ≠ some c)
    (hlc : (sanitize_filename norm p s).getLast? ≠ some c)
    (hlsp : (sanitize_filename norm p s).getLast? ≠ some ' ')
    (hld : (sanitize_filename norm p s).getLast? ≠ some '.')
    (hne : sanitize_filename norm p s ≠ [])
    (hres : (p.windows && isReservedName (sanitize_filename norm p s)) = false)
    (hlen : (sanitize_filename norm p s).length ≤ p.maxLength) :
    sanitize_filename norm p (sanitize_filename norm p s) =
      sanitize_filename norm p s :=
  sanitize_filename_fixed norm p c _ hr hnorm hgood hnd hhead hlc hlsp hld
    hne hres hlen

/-- Claim C1 witness: the hypotheses of the corrected idempotence theorem
hold at the concrete input `"My Photo!!.JPG"` under the default policy. -/
theorem sanitize_idempotent_witness :
    defaultPolicy.replacement = ['_'] ∧
    sanitize_filename nfkcModel defaultPolicy
        (sanitize_filename nfkcModel defaultPolicy ("My Photo!!.JPG".toList)) =
      sanitize_filename nfkcModel defaultPolicy ("My Photo!!.JPG".toList) :=
  ⟨rfl, sanitize_idempotent_on_sanitized_outputs nfkcModel defaultPolicy
    ("My Photo!!.JPG".toList) '_' rfl rfl (by decide) (by decide) (by decide)
    (by decide) (by decide) (by decide) (by decide) (by decide) (by decide)⟩

/-- The policy of the C2 counterexample: the replacement token itself is the
illegal character `'?'`. -/
def qmarkPolicy : Policy := ⟨['?'], DEFAULT_ILLEGAL_CHARS, 255, false⟩

/-- Claim C2 counterexample: with replacement token `"?"` (an illegal
character) the output of the sanitizer contains an illegal character:
`sanitize("a?b")` is `"a?b"` again. -/
theorem sanitize_output_can_contain_illegal :
    '?' ∈ sanitize_filename nfkcModel qmarkPolicy ("a?b".toList) ∧
    '?' ∈ qmarkPolicy.illegal := by decide

/-- Claim C2 (corrected): provided the replacement token consists of clean
characters, the characters of the fallback literal and (on Windows) `'_'`
are not themselves illegal, and the maximum length is at least 1, the
sanitizer's output is nonempty and contains no illegal, whitespace or
control character; and an empty trimmed intermediate result is replaced by
the fixed fallback literal `"unnamed"`.  (The no-backslash hypothesis marks
the fragment of `re.sub` modelled by `pyCollapse`.) -/
theorem sanitize_output_clean
    (norm : List Char → List Char) (p : Policy) (s : List Char)
    (hrep : ∀ x ∈ p.replacement, isBadChar p.illegal x = false)
    (hfb : ∀ x ∈ unnamedFallback, p.illegal.contains x = false)
    (hwin : p.windows = true → p.illegal.contains '_' = false)
    (hmax : 1 ≤ p.maxLength)
    (_hbs : ('\\' : Char) ∉ p.replacement) :
    sanitize_filename norm p s ≠ [] ∧
    (∀ x ∈ sanitize_filename norm p s, isBadChar p.illegal x = false) ∧
    (sanitizeTrimmed norm p s = [] →
      sanitizeCore norm p s = unnamedFallback) := by
  refine ⟨?_, ?_, ?_⟩
  · exact truncateResult_ne_nil _ _ hmax (sanitizeCore_ne_nil norm p s)
  · intro x hx
    exact sanitizeCore_goodChars norm p s hrep hfb hwin x
      (mem_truncateResult _ _ x hx)
  · intro h
    have hrn : isReservedName unnamedFallback = false := by decide
    simp [sanitizeCore, sanitizeFallback, h, hrn]

/-- Claim C2 witness: the corrected guarantee applied to the default policy
and the input `"a<b"`. -/
theorem sanitize_output_clean_witness :
    sanitize_filename nfkcModel defaultPolicy ("a<b".toList) ≠ [] ∧
    (∀ x ∈ sanitize_filename nfkcModel defaultPolicy ("a<b".toList),
      isBadChar defaultPolicy.illegal x = false) ∧
    (sanitizeTrimmed nfkcModel defaultPolicy ("a<b".toList) = [] →
      sanitizeCore nfkcModel defaultPolicy ("a<b".toList) = unnamedFallback) :=
  sanitize_output_clean nfkcModel defaultPolicy ("a<b".toList) (by decide)
    (by decide) (by decide) (by decide) (by decide)

/-- Claim C5 counterexample: under the default policy the input
`"My Photo!!.JPG"` does not sanitize to `"My_Photo.JPG"` — `'!'` is not in
`DEFAULT_ILLEGAL_CHARS`, so the two exclamation marks survive. -/
theorem scenarioA_not_claimed_string :
    sanitize_filename nfkcModel defaultPolicy ("My Photo!!.JPG".toList) ≠
      "My_Photo.JPG".toList := by decide

/-- Claim C5 (corrected): under the default policy (replacement `"_"`,
default illegal set) the input `"My Photo!!.JPG"` sanitizes exactly to
`"My_Photo!!.JPG"`: only the space is replaced. -/
theorem scenarioA_actual_string :
    sanitize_filename nfkcModel defaultPolicy ("My Photo!!.JPG".toList) =
      "My_Photo!!.JPG".toList := by decide

/-- A policy with a short maximum length for the C6 witness. -/
def shortPolicy : Policy := ⟨['_'], DEFAULT_ILLEGAL_CHARS, 5, false⟩

/-- A policy with maximum length 1 for the C6 counterexample. -/
def tinyPolicy : Policy := ⟨['_'], DEFAULT_ILLEGAL_CHARS, 1, false⟩

/-- Claim C6 counterexample: with maximum length 1 the input `"a.bb"`
sanitizes to `".bb"` — the extension alone exceeds the bound, the stem slice
becomes empty, and the returned name has length 3 > 1. -/
theorem truncation_can_exceed_max_length :
    ¬((sanitize_filename nfkcModel tinyPolicy ("a.bb".toList)).length ≤
        tinyPolicy.maxLength) := by decide

/-- Claim C6 (corrected): truncation only ever shortens the stem — the
result is a prefix of the stem followed by the untouched extension suffix —
and the returned length is bounded by the maximum length whenever the suffix
alone fits within it; when the suffix alone exceeds the maximum length the
bound can be exceeded (see the counterexample). -/
theorem truncation_preserves_suffix
    (norm : List Char → List Char) (p : Policy) (s : List Char) :
    (p.maxLength < (sanitizeCore norm p s).length →
      ∃ k, sanitize_filename norm p s =
        (pySplitext (sanitizeCore norm p s)).1.take k ++
          (pySplitext (sanitizeCore norm p s)).2) ∧
    ((sanitizeCore norm p s).length ≤ p.maxLength →
      sanitize_filename norm p s = sanitizeCore norm p s) ∧
    ((pySplitext (sanitizeCore norm p s)).2.length ≤ p.maxLength →
      (sanitize_filename norm p s).length ≤ p.maxLength) := by
  refine ⟨?_, ?_, ?_⟩
  · intro hgt
    unfold sanitize_filename truncateResult
    rw [if_pos hgt]
    rcases pySliceTake_eq_take (pySplitext (sanitizeCore norm p s)).1
        ((p.maxLength : Int) -
          (((pySplitext (sanitizeCore norm p s)).2.length : Nat) : Int))
      with ⟨k, hk⟩
    exact ⟨k, by rw [hk]⟩
  · intro hle
    unfold sanitize_filename
    exact truncateResult_eq_self _ _ hle
  · intro hsuf
    unfold sanitize_filename truncateResult
    split
    · rw [List.length_append]
      have h1 := length_pySliceTake_le (pySplitext (sanitizeCore norm p s)).1
        ((p.maxLength : Int) -
          (((pySplitext (sanitizeCore norm p s)).2.length : Nat) : Int))
        (by omega)
      omega
    · rename_i hlt
      omega

/-- Claim C6 witness: under `shortPolicy` (max length 5) the input
`"abcdef.txt"` has an oversized core, the result keeps the full `".txt"`
suffix with a truncated stem, and — the suffix fitting within the bound —
the final length respects the bound. -/
theorem truncation_preserves_suffix_witness :
    (∃ k, sanitize_filename nfkcModel shortPolicy ("abcdef.txt".toList) =
      (pySplitext (sanitizeCore nfkcModel shortPolicy ("abcdef.txt".toList))).1.take k ++
        (pySplitext (sanitizeCore nfkcModel shortPolicy ("abcdef.txt".toList))).2) ∧
    (sanitize_filename nfkcModel shortPolicy ("abcdef.txt".toList)).length ≤
      shortPolicy.maxLength :=
  ⟨(truncation_preserves_suffix nfkcModel shortPolicy ("abcdef.txt".toList)).1
      (by decide),
   (truncation_preserves_suffix nfkcModel shortPolicy ("abcdef.txt".toList)).2.2
      (by decide)⟩

/-- Claim C3: the collision resolver is a pure function of the directory
contents and the desired name — it keeps no reservation record, so two calls
against the same directory state return the same path.  With no
`report.txt` on disk and no rename committed in between, both the first and
the second reservation of `report.txt` receive `report.txt` itself (the
claim demands `report.txt` and `report_1.txt`); only after the first rename
has been committed does the resolver hand out `report_1.txt`. -/
theorem unique_target_no_reservation :
    uniqueTarget [] ("report".toList) (".txt".toList) = "report.txt".toList ∧
    uniqueTarget ["report.txt".toList] ("report".toList) (".txt".toList) =
      "report_1.txt".toList := by decide

/-- Claim C4: in dry-run mode `rename_file` never changes the directory
contents, and — when the task is live (`stop` unset) and sanitization
changed the name, i.e. the executor step is reached — it reports the
resolved collision-free target with a `True` (renamed) return value. -/
theorem dry_run_frame
    (norm : List Char → List Char) (repl : List Char) (windows : Bool)
    (moveOk : List Char → List Char → Bool) (dir : List (List Char))
    (nm : List Char) (backup stop : Bool) :
    (rename_file norm repl windows moveOk dir nm true backup stop).1 = dir ∧
    (sanitize_filename norm (runPolicy repl windows) nm ≠ nm →
      (rename_file norm repl windows moveOk dir nm true backup false).2 =
        Outcome.dryRun (uniqueTarget dir
          (pathStem (sanitize_filename norm (runPolicy repl windows) nm))
          (pathSuffix (sanitize_filename norm (runPolicy repl windows) nm))) ∧
      outcomeBool
        (rename_file norm repl windows moveOk dir nm true backup false).2 =
          true) := by
  constructor
  · cases stop with
    | true => rfl
    | false =>
        unfold rename_file
        simp only [Bool.false_eq_true, if_false]
        split
        · rfl
        · rfl
  · intro hchg
    unfold rename_file
    simp only [Bool.false_eq_true, if_false]
    rw [if_neg hchg]
    exact ⟨rfl, rfl⟩

/-- Claim C4 witness: dry-run on the file `"a b.txt"` in an empty directory
leaves the directory untouched and reports the target `"a_b.txt"`. -/
theorem dry_run_frame_witness :
    (rename_file nfkcModel ['_'] false (fun _ _ => true) [] ("a b.txt".toList)
        true false false).1 = [] ∧
    (rename_file nfkcModel ['_'] false (fun _ _ => true) [] ("a b.txt".toList)
        true false false).2 =
      Outcome.dryRun (uniqueTarget []
        (pathStem (sanitize_filename nfkcModel (runPolicy ['_'] false)
          ("a b.txt".toList)))
        (pathSuffix (sanitize_filename nfkcModel (runPolicy ['_'] false)
          ("a b.txt".toList)))) :=
  ⟨(dry_run_frame nfkcModel ['_'] false (fun _ _ => true) [] ("a b.txt".toList)
      false false).1,
   ((dry_run_frame nfkcModel ['_'] false (fun _ _ => true) [] ("a b.txt".toList)
      false false).2 (by decide)).1⟩

/-- Claim C7: when sanitization leaves the name unchanged, a live
`rename_file` call returns the skipped-unchanged outcome and neither reads
nor writes the directory — the result is `(dir, unchanged)` for every
directory state and every move oracle. -/
theorem skip_unchanged
    (norm : List Char → List Char) (repl : List Char) (windows : Bool)
    (moveOk : List Char → List Char → Bool) (dir : List (List Char))
    (nm : List Char) (dry backup : Bool)
    (h : sanitize_filename norm (runPolicy repl windows) nm = nm) :
    rename_file norm repl windows moveOk dir nm dry backup false =
      (dir, Outcome.unchanged) := by
  unfold rename_file
  simp only [Bool.false_eq_true, if_false]
  rw [if_pos h]

/-- Claim C7 witness: the already-sanitized name `"photo.jpg"` is skipped
unchanged whatever the directory contains. -/
theorem skip_unchanged_witness :
    rename_file nfkcModel ['_'] false (fun _ _ => true)
        ["photo.jpg".toList, "other.txt".toList] ("photo.jpg".toList)
        false false false =
      (["photo.jpg".toList, "other.txt".toList], Outcome.unchanged) :=
  skip_unchanged nfkcModel ['_'] false (fun _ _ => true)
    ["photo.jpg".toList, "other.txt".toList] ("photo.jpg".toList)
    false false (by decide)

/-- Claim C8: in backup mode, when the first move (source to the
collision-resolved backup path, the name with the fixed `".bak"` marker
appended) succeeds and the second move (backup to the resolved target)
fails, the directory is left with the file at the backup path only, the
call reports the failure carrying the backup location, returns `False`, and
attempts no further move. -/
theorem backup_second_move_failure
    (norm : List Char → List Char) (repl : List Char) (windows : Bool)
    (moveOk : List Char → List Char → Bool) (dir : List (List Char))
    (nm bak tgt : List Char)
    (hbak : bak = uniqueTarget dir (pathStem (nm ++ ".bak".toList))
      (pathSuffix (nm ++ ".bak".toList)))
    (htgt : tgt = uniqueTarget dir
      (pathStem (sanitize_filename norm (runPolicy repl windows) nm))
      (pathSuffix (sanitize_filename norm (runPolicy repl windows) nm)))
    (hchg : sanitize_filename norm (runPolicy repl windows) nm ≠ nm)
    (h1 : moveOk nm bak = true)
    (h2 : moveOk bak tgt = false) :
    rename_file norm repl windows moveOk dir nm false true false =
      (fsMove dir nm bak, Outcome.failed bak tgt) ∧
    bak ∈ (rename_file norm repl windows moveOk dir nm false true false).1 ∧
    outcomeBool
      (rename_file norm repl windows moveOk dir nm false true false).2 =
        false := by
  subst hbak htgt
  have hmain : rename_file norm repl windows moveOk dir nm false true false =
      (fsMove dir nm
        (uniqueTarget dir (pathStem (nm ++ ".bak".toList))
          (pathSuffix (nm ++ ".bak".toList))),
       Outcome.failed
        (uniqueTarget dir (pathStem (nm ++ ".bak".toList))
          (pathSuffix (nm ++ ".bak".toList)))
        (uniqueTarget dir
          (pathStem (sanitize_filename norm (runPolicy repl windows) nm))
          (pathSuffix (sanitize_filename norm (runPolicy repl windows) nm)))) := by
    have h2n : ¬(moveOk
        (uniqueTarget dir (pathStem (nm ++ ".bak".toList))
          (pathSuffix (nm ++ ".bak".toList)))
        (uniqueTarget dir
          (pathStem (sanitize_filename norm (runPolicy repl windows) nm))
          (pathSuffix (sanitize_filename norm (runPolicy repl windows) nm)))
        = true) := by
      rw [h2]
      exact Bool.false_ne_true
    unfold rename_file
    simp only [Bool.false_eq_true, if_false, eq_self_iff_true, if_true]
    rw [if_neg hchg, if_pos h1, if_neg h2n]
  refine ⟨hmain, ?_, ?_⟩
  · rw [hmain]
    unfold fsMove
    exact List.mem_insert_self _ _
  · rw [hmain]
    rfl

/-- Claim C8 witness: the file `"a b.txt"`, alone in its directory, is moved
to `"a b.txt.bak"`; the second move to `"a_b.txt"` fails and the call
reports the failure with the backup location, leaving the file there. -/
theorem backup_second_move_failure_witness :
    rename_file nfkcModel ['_'] false
        (fun src _ => src == "a b.txt".toList) ["a b.txt".toList]
        ("a b.txt".toList) false true false =
      (fsMove ["a b.txt".toList] ("a b.txt".toList) ("a b.txt.bak".toList),
       Outcome.failed ("a b.txt.bak".toList) ("a_b.txt".toList)) ∧
    "a b.txt.bak".toList ∈
      (rename_file nfkcModel ['_'] false
        (fun src _ => src == "a b.txt".toList) ["a b.txt".toList]
        ("a b.txt".toList) false true false).1 ∧
    outcomeBool
      (rename_file nfkcModel ['_'] false
        (fun src _ => src == "a b.txt".toList) ["a b.txt".toList]
        ("a b.txt".toList) false true false).2 = false :=
  backup_second_move_failure nfkcModel ['_'] false
    (fun src _ => src == "a b.txt".toList) ["a b.txt".toList]
    ("a b.txt".toList) ("a b.txt.bak".toList) ("a_b.txt".toList)
    (by decide) (by decide) (by decide) (by decide) (by decide)

/-- Claim C9 counterexample: two submitted tasks both complete successfully,
but with the stop flag observed at the second drain iteration the summary
counts only one renamed task — the outcome of a task that completed before
batch end is not reflected. -/
theorem summary_misses_completed_after_cancel :
    (processSummary (some 1) [true, true]).renamed ≠
      ([true, true].filter id).length := by decide

/-- Claim C9 (corrected): in an uncancelled batch the summary is a complete
accounting — the total equals the number of submitted tasks and the renamed
counter equals the number of tasks whose call returned `True`.  (The summary
carries no failed counter at all, and outcomes arriving after cancellation
is observed are dropped, see the counterexample.) -/
theorem summary_counts_uncancelled (results : List Bool) :
    (processSummary none results).total = results.length ∧
    (processSummary none results).renamed = (results.filter id).length := by
  constructor
  · rfl
  · unfold processSummary drainCount
    simp [List.take_length]

/-- Claim C10 counterexample: with configured allow-list `["JPG"]` and
case-sensitive matching, the non-hidden regular file `"photo.JPG"` — whose
extension is exactly the configured one — is skipped, because the filter set
was lowercased to `".jpg"` when it was built; with case-insensitive matching
the same file is yielded. -/
theorem case_sensitive_filter_misses_configured_extension :
    pyLStrip ['.'] (pathSuffix ("photo.JPG".toList)) = "JPG".toList ∧
    shouldYield (mkExtSet (some ["JPG".toList])) false
      ⟨"photo.JPG".toList, false, true⟩ = false ∧
    shouldYield (mkExtSet (some ["JPG".toList])) true
      ⟨"photo.JPG".toList, false, true⟩ = true := by decide

/-- Claim C10 (corrected): the configured extensions are normalized —
leading dots stripped, lowercased, dot-prefixed — when the filter is built,
and the scanner yields a non-hidden regular file iff its `pathlib` suffix,
lowercased exactly when case-insensitive matching is requested and taken
as-is otherwise, belongs to that normalized set. -/
theorem scanner_filter_iff
    (t : List Char) (ts : List (List Char)) (ci : Bool) (e : DirEntry)
    (hdir : e.isDir = false) (hfile : e.isFile = true)
    (hhid : startsWithDot e.name = false) :
    shouldYield (mkExtSet (some (t :: ts))) ci e =
      ((t :: ts).map normExt).contains
        (if ci then (pathSuffix e.name).map pyToLower
         else pathSuffix e.name) := by
  simp [shouldYield, mkExtSet, hdir, hfile, hhid]

/-- Claim C10 witness: the corrected filter rule evaluated at the file
`"a.jpg"` under the configured allow-list `["jpg"]` with case-sensitive
matching. -/
theorem scanner_filter_iff_witness :
    shouldYield (mkExtSet (some ["jpg".toList])) false
      ⟨"a.jpg".toList, false, true⟩ =
      (["jpg".toList].map normExt).contains (pathSuffix ("a.jpg".toList)) :=
  scanner_filter_iff ("jpg".toList) [] false ⟨"a.jpg".toList, false, true⟩
    rfl rfl (by decide)
